import Mathlib

/-!
Verification of the SceneScape DL Streamer adapter
(`sscape_adapter.py`): camera-intrinsics resolution, the confidence gate,
metadata policies, per-frame aggregation, and the timestamp filter,
shallowly embedded over `ℚ` with Python exceptions as `Except`/`Option`.
-/

namespace Sscape

/-- Python `int()` applied to a rational: truncation toward zero. -/
def pyInt (q : ℚ) : ℤ := q.num.tdiv q.den

/-- Normalized bounding box of a detection (`detection.bounding_box`). -/
structure NormBox where
  x_min : ℚ
  y_min : ℚ
  x_max : ℚ
  y_max : ℚ
  deriving DecidableEq, Repr

/-- One raw detection dict from the pipeline: pixel box, detection block,
and auxiliary tensors (each tensor's `data`, values as 32-bit words). -/
structure Det where
  x : ℚ
  y : ℚ
  w : ℚ
  h : ℚ
  label : String
  confidence : ℚ
  bounding_box : NormBox
  tensors : List (List Nat)
  deriving DecidableEq, Repr

/-- `center_of_mass` payload built by `computeObjBoundingBoxParams`:
`x`,`y` go through Python `int()`, `width`,`height` stay floats. -/
structure CenterOfMass where
  x : ℤ
  y : ℤ
  width : ℚ
  height : ℚ
  deriving DecidableEq, Repr

/-- `bounding_box_px` payload: the detection's own pixel fields, verbatim. -/
structure PixelBox where
  x : ℚ
  y : ℚ
  width : ℚ
  height : ℚ
  deriving DecidableEq, Repr

/-- Output of `computeObjBoundingBoxParams` (the two keys it `update`s). -/
structure GeomOut where
  center_of_mass : CenterOfMass
  bounding_box_px : PixelBox
  deriving DecidableEq, Repr

/-- `computeObjBoundingBoxParams` from the source: pixel extents by
`int()` truncation of normalized coordinate times frame dimension,
`comw=(xmax-xmin)/3`, `comh=(ymax-ymin)/4`, center of mass with
truncated `x`/`y`, and the raw pixel box passed through. -/
def computeObjBoundingBoxParams (fw fh x y w h xminnorm yminnorm xmaxnorm ymaxnorm : ℚ) :
    GeomOut :=
  let xmax : ℤ := pyInt (xmaxnorm * fw)
  let xmin : ℤ := pyInt (xminnorm * fw)
  let ymax : ℤ := pyInt (ymaxnorm * fh)
  let ymin : ℤ := pyInt (yminnorm * fh)
  let comw : ℚ := (xmax - xmin) / 3
  let comh : ℚ := (ymax - ymin) / 4
  { center_of_mass :=
      { x := pyInt ((xmin : ℚ) + comw), y := pyInt ((ymin : ℚ) + comh),
        width := comw, height := comh }
    bounding_box_px := { x := x, y := y, width := w, height := h } }

example : pyInt (299/10) = 29 := by norm_num [pyInt]; decide
example : pyInt (-299/10) = -29 := by norm_num [pyInt]; decide
example : (computeObjBoundingBoxParams 640 480 1 2 3 4 (1/4) (1/4) (3/4) (3/4)).center_of_mass.y = 180 := by
  norm_num [computeObjBoundingBoxParams, pyInt]

/-- The confidence-threshold table as loaded by `load_confidence_thresholds`:
a key/value mapping guaranteed to carry a `"default"` entry. -/
structure ThresholdTable where
  entries : List (String × ℚ)
  dflt : ℚ
  dflt_mem : entries.lookup "default" = some dflt

/-- `get_threshold`: `confidence_thresholds.get(obj_type, confidence_thresholds["default"])`. -/
def ThresholdTable.threshold (t : ThresholdTable) (lbl : String) : ℚ :=
  (t.entries.lookup lbl).getD t.dflt

/-- The spec contract `shouldKeep(label, confidence) = confidence >= threshold(label)`. -/
def shouldKeep (t : ThresholdTable) (lbl : String) (conf : ℚ) : Bool :=
  t.threshold lbl ≤ conf

/-- One object record as built by the metadata policies and the
aggregation loop (`vaobj`). `id` is assigned by the loop. -/
structure ObjRec where
  category : String
  confidence : ℚ
  center_of_mass : CenterOfMass
  bounding_box_px : PixelBox
  reid : Option String
  id : Nat
  deriving DecidableEq, Repr

/-- The module-level `detectionPolicy` body: category and confidence from
the detection block, then the shared geometry step. -/
def detectionObj (d : Det) (fw fh : ℚ) : ObjRec :=
  let g := computeObjBoundingBoxParams fw fh d.x d.y d.w d.h
    d.bounding_box.x_min d.bounding_box.y_min d.bounding_box.x_max d.bounding_box.y_max
  { category := d.label, confidence := d.confidence,
    center_of_mass := g.center_of_mass, bounding_box_px := g.bounding_box_px,
    reid := none, id := 0 }

/-- A metadata policy: from one raw detection to an object record, or a
raised Python exception. -/
abbrev Policy := Det → ℚ → ℚ → Except String ObjRec

/-- Module-level `detectionPolicy` as dispatched by `buildObjData`. Total. -/
def detectionPolicyE : Policy := fun d fw fh => .ok (detectionObj d fw fh)

/-- The standard base64 alphabet. -/
def b64chars : List Char :=
  ['A', 'B', 'C', 'D', 'E', 'F', 'G', 'H', 'I', 'J', 'K', 'L', 'M',
   'N', 'O', 'P', 'Q', 'R', 'S', 'T', 'U', 'V', 'W', 'X', 'Y', 'Z',
   'a', 'b', 'c', 'd', 'e', 'f', 'g', 'h', 'i', 'j', 'k', 'l', 'm',
   'n', 'o', 'p', 'q', 'r', 's', 't', 'u', 'v', 'w', 'x', 'y', 'z',
   '0', '1', '2', '3', '4', '5', '6', '7', '8', '9', '+', '/']

/-- Alphabet character for a 6-bit value. -/
def b64charOf (n : Nat) : Char := b64chars.getD n '?'

/-- Index of a character in the base64 alphabet, if present. -/
def b64indexOf (c : Char) : Option Nat := b64chars.findIdx? (· == c)

/-- `base64.b64encode` on a byte sequence (bytes as `Nat < 256`). -/
def b64encodeBytes : List Nat → List Char
  | [] => []
  | [a] => [b64charOf (a / 4), b64charOf (a % 4 * 16), '=', '=']
  | [a, b] => [b64charOf (a / 4), b64charOf (a % 4 * 16 + b / 16), b64charOf (b % 16 * 4), '=']
  | a :: b :: c :: rest =>
    b64charOf (a / 4) :: b64charOf (a % 4 * 16 + b / 16) ::
      b64charOf (b % 16 * 4 + c / 64) :: b64charOf (c % 64) :: b64encodeBytes rest

/-- `base64.b64decode`: recover the byte sequence, `none` on malformed input. -/
def b64decodeBytes : List Char → Option (List Nat)
  | [] => some []
  | w :: x :: y :: z :: rest =>
    match b64indexOf w, b64indexOf x with
    | some a, some b =>
      if z = '=' then
        if rest = [] then
          if y = '=' then some [a * 4 + b / 16]
          else match b64indexOf y with
            | some c => some [a * 4 + b / 16, b % 16 * 16 + c / 4]
            | none => none
        else none
      else
        match b64indexOf y, b64indexOf z with
        | some c, some d =>
          match b64decodeBytes rest with
          | some tail => some ((a * 4 + b / 16) :: (b % 16 * 16 + c / 4) :: (c % 4 * 64 + d) :: tail)
          | none => none
        | _, _ => none
    | _, _ => none
  | _ => none

/-- Little-endian byte expansion of one 32-bit word: the 4 bytes
`struct.pack` contributes per float value. -/
def word32bytes (wd : Nat) : List Nat :=
  [wd % 256, wd / 256 % 256, wd / 65536 % 256, wd / 16777216 % 256]

/-- `struct.pack("256f", *v)`: raises unless exactly 256 values, else the
1024-byte buffer of the values' 4-byte representations. -/
def structPack256f (data : List Nat) : Except String (List Nat) :=
  if data.length = 256 then .ok ((data.map word32bytes).flatten)
  else .error "struct.error: pack expected 256 items"

/-- Module-level `reidPolicy`: detection step, then base64 of the packed
second auxiliary tensor; Python raises if `tensors[1]` is absent
(IndexError) or its data is not exactly 256 values (struct.error). -/
def reidPolicyE : Policy := fun d fw fh =>
  match d.tensors.get? 1 with
  | none => .error "IndexError: tensors[1]"
  | some data =>
    match structPack256f data with
    | .error e => .error e
    | .ok bytes => .ok { detectionObj d fw fh with reid := some ⟨b64encodeBytes bytes⟩ }

/-- The grouped objects container: `objects = defaultdict(list)`,
insertion-ordered category keys. -/
abbrev Grouped := List (String × List ObjRec)

/-- `len(objects[otype])` (0 when the key is not yet present). -/
def groupLen (m : Grouped) (c : String) : Nat :=
  match m.lookup c with
  | some l => l.length
  | none => 0

/-- `objects[otype].append(o)` with defaultdict semantics: append to the
existing entry, or create the entry at the end of the key order. -/
def groupAdd : Grouped → String → ObjRec → Grouped
  | [], c, o => [(c, [o])]
  | (k, l) :: rest, c, o =>
    if k = c then (k, l ++ [o]) :: rest else (k, l) :: groupAdd rest c o

/-- The detection loop of `buildObjData` (lines 402-412): gate on
confidence, build the record via the configured policy, assign the
1-based per-category `id`, and append. An exception from the policy
propagates (aborting the whole frame). -/
def runDetections (t : ThresholdTable) (pol : Policy) (fw fh : ℚ) :
    List Det → Grouped → Except String Grouped
  | [], m => .ok m
  | d :: rest, m =>
    if d.confidence < t.threshold d.label then
      runDetections t pol fw fh rest m
    else
      match pol d fw fh with
      | .error e => .error e
      | .ok vaobj =>
        runDetections t pol fw fh rest
          (groupAdd m vaobj.category { vaobj with id := groupLen m vaobj.category + 1 })

/-- `resolution` entry of the incoming raw metadata. -/
structure Resolution where
  width : ℚ
  height : ℚ
  deriving DecidableEq, Repr

/-- Incoming raw frame metadata (`gvadata`), the fields `buildObjData`
reads for grouping: optional `objects` and optional `resolution`. -/
structure GvaData where
  objects : Option (List Det)
  resolution : Option Resolution
  deriving DecidableEq, Repr

/-- Lines 398-412 of `buildObjData`: when `objects` is present and
non-empty, read the frame resolution (KeyError if absent) and run the
detection loop; otherwise the grouping stays empty. -/
def buildGrouped (t : ThresholdTable) (pol : Policy) (g : GvaData) :
    Except String Grouped :=
  match g.objects with
  | none => .ok []
  | some dets =>
    if dets.length > 0 then
      match g.resolution with
      | none => .error "KeyError: resolution"
      | some r => runDetections t pol r.width r.height dets []
    else .ok []

/-- `CameraIntrinsics.INTRINSICS_KEYS`. -/
def INTRINSICS_KEYS : List String := ["fx", "fy", "cx", "cy"]

/-- `CameraIntrinsics.DISTORTION_KEYS`. -/
def DISTORTION_KEYS : List String :=
  ["k1", "k2", "p1", "p2", "k3", "k4", "k5", "k6",
   "s1", "s2", "s3", "s4", "taux", "tauy"]

/-- A 3×3 intrinsics matrix. -/
structure Mat3 where
  m00 : ℚ
  m01 : ℚ
  m02 : ℚ
  m10 : ℚ
  m11 : ℚ
  m12 : ℚ
  m20 : ℚ
  m21 : ℚ
  m22 : ℚ
  deriving DecidableEq, Repr

/-- The canonical pinhole matrix `[[fx,0,cx],[0,fy,cy],[0,0,1]]`. -/
def pinhole (fx fy cx cy : ℚ) : Mat3 :=
  ⟨fx, 0, cx, 0, fy, cy, 0, 0, 1⟩

/-- What `self.intrinsics` ends up holding: a 3×3 matrix, or the raw
flat list when no branch reshaped it. -/
inductive StoredIntr where
  | mat (M : Mat3)
  | raw (l : List ℚ)
  deriving DecidableEq, Repr

/-- A calibration description (`intrinsics` argument): a named-key
mapping or an ordered list. -/
inductive CalibInput where
  | dict (d : List (String × ℚ))
  | list (l : List ℚ)
  deriving DecidableEq, Repr

/-- A distortion description: absent (`None`), list/tuple, mapping, or
some unrecognized value. -/
inductive DistortionInput where
  | absent
  | list (l : List ℚ)
  | dict (d : List (String × ℚ))
  | other
  deriving DecidableEq, Repr

/-- `CameraIntrinsics.intrinsicsDictToList`: note the first guard checks
that every key of the mapping lies in `INTRINSICS_KEYS` (not that all
four keys are present), then indexes all four (KeyError if one is
missing); otherwise falls through to the field-of-view forms or raises
ValueError. -/
def intrinsicsDictToList (d : List (String × ℚ)) : Except String (List ℚ) :=
  if d.all (fun kv => INTRINSICS_KEYS.contains kv.1) then
    match d.lookup "fx", d.lookup "fy", d.lookup "cx", d.lookup "cy" with
    | some a, some b, some c, some e => .ok [a, b, c, e]
    | _, _, _, _ => .error "KeyError"
  else
    match d.lookup "hfov", d.lookup "vfov" with
    | some hv, some vv => .ok [hv, vv]
    | _, _ =>
      match d.lookup "fov" with
      | some f => .ok [f]
      | none => .error "ValueError: Invalid intrinsics"

/-- `CameraIntrinsics.distortionDictToList`: read the fixed 14-key
schema, missing keys defaulting to 0.0. -/
def distortionDictToList (d : List (String × ℚ)) : List ℚ :=
  DISTORTION_KEYS.map (fun k => (d.lookup k).getD 0)

/-- `CameraIntrinsics._setDistortion`: list/tuple is right-padded with
zeros to 14 entries (`np.pad` raises when longer than 14), a mapping
goes through the schema, anything else yields the all-zero vector. -/
def setDistortion : DistortionInput → Except String (List ℚ)
  | .absent => .ok (List.replicate 14 0)
  | .other => .ok (List.replicate 14 0)
  | .dict d => .ok (distortionDictToList d)
  | .list l =>
    if l.length ≤ 14 then .ok (l ++ List.replicate (14 - l.length) 0)
    else .error "ValueError: negative pad width"

/-- `CameraIntrinsics.computeIntrinsicsFromFoV`. The trigonometry is
abstracted: `tanHalf θ` stands for `tan(radians(θ)/2)` and `sqrtQ` for
`math.sqrt`; the guard and data flow are from the source. Raises
ValueError when `resolution` is not a 2-element sequence. -/
def computeIntrinsicsFromFoV (tanHalf sqrtQ : ℚ → ℚ)
    (resolution : Option (List ℚ)) (fov : List ℚ) : Except String Mat3 :=
  match resolution with
  | none => .error "ValueError: Resolution required to calculate intrinsics from field of view"
  | some res =>
    if res.length = 2 then
      let cx := res.getD 0 0 / 2
      let cy := res.getD 1 0 / 2
      let dd := sqrtQ (cx * cx + cy * cy)
      if fov.length = 1 then
        let f := dd / tanHalf (fov.getD 0 0)
        .ok (pinhole f f cx cy)
      else
        .ok (pinhole (cx / tanHalf (fov.getD 0 0)) (cy / tanHalf (fov.getD 1 0)) cx cy)
    else .error "ValueError: Resolution required to calculate intrinsics from field of view"

/-- The resolved camera-intrinsics object: `self.intrinsics` and
`self.distortion`. -/
structure CamIntr where
  intrinsics : StoredIntr
  distortion : List ℚ
  deriving DecidableEq, Repr

/-- The list-shaped tail of `CameraIntrinsics.__init__`: length 1 or 2
goes through field of view, length 4 builds the matrix directly, any
other length is stored as the raw array. -/
def initFromList (tanHalf sqrtQ : ℚ → ℚ) (res : Option (List ℚ)) (l : List ℚ) :
    Except String StoredIntr :=
  if l.length = 1 ∨ l.length = 2 then
    match computeIntrinsicsFromFoV tanHalf sqrtQ res l with
    | .error e => .error e
    | .ok M => .ok (.mat M)
  else if l.length = 4 then
    .ok (.mat (pinhole (l.getD 0 0) (l.getD 1 0) (l.getD 2 0) (l.getD 3 0)))
  else .ok (.raw l)

/-- `CameraIntrinsics.__init__`: mapping inputs go through
`intrinsicsDictToList` first (so a mapping with any key outside the four
raises even when all four are present); a mapping holding all four keys
builds the matrix directly; list forms as in `initFromList`; finally
`_setDistortion`. -/
def cameraIntrinsicsInit (tanHalf sqrtQ : ℚ → ℚ) (intr : CalibInput)
    (dist : DistortionInput) (res : Option (List ℚ)) : Except String CamIntr :=
  let stored : Except String StoredIntr :=
    match intr with
    | .dict d =>
      match intrinsicsDictToList d with
      | .error e => .error e
      | .ok lst =>
        if INTRINSICS_KEYS.all (fun k => (d.lookup k).isSome) then
          .ok (.mat (pinhole ((d.lookup "fx").getD 0) ((d.lookup "fy").getD 0)
            ((d.lookup "cx").getD 0) ((d.lookup "cy").getD 0)))
        else initFromList tanHalf sqrtQ res lst
    | .list l => initFromList tanHalf sqrtQ res l
  match stored with
  | .error e => .error e
  | .ok iv =>
    match setDistortion dist with
    | .error e => .error e
    | .ok dl => .ok ⟨iv, dl⟩

/-- The `intrinsics` part of `CameraIntrinsics.asDict`:
`fx=M[0][0], fy=M[1][1], cx=M[0][2], cy=M[1][2]`. -/
structure IntrDict where
  fx : ℚ
  fy : ℚ
  cx : ℚ
  cy : ℚ
  deriving DecidableEq, Repr

/-- `CameraIntrinsics.asDict`: matrix entries by index plus the zipped
distortion keys; indexing a raw 1-D stored array raises. -/
def CamIntr.asDict (c : CamIntr) : Except String (IntrDict × List (String × ℚ)) :=
  match c.intrinsics with
  | .mat M => .ok (⟨M.m00, M.m11, M.m02, M.m12⟩, DISTORTION_KEYS.zip c.distortion)
  | .raw _ => .error "IndexError: scalar index"

/-- Per-camera mutable aggregation state: `self.resolution` and
`self.intrinsics_obj`. -/
structure CamState where
  resolution : Option (ℚ × ℚ)
  intrinsics_obj : Option CamIntr
  deriving DecidableEq, Repr

/-- Per-camera configuration fixed at construction: threshold table,
dispatched metadata policy, calibration entry for the camera, and the
abstracted numeric routines. -/
structure CamConfig where
  thresholds : ThresholdTable
  policy : Policy
  calib_intrinsics : Option CalibInput
  calib_distortion : DistortionInput
  tanHalf : ℚ → ℚ
  sqrtQ : ℚ → ℚ

/-- `PostInferenceDataPublish.buildObjData`, state-relevant part: run the
grouping (an exception there leaves the state untouched), then the
resolution latch, then the intrinsics latch (constructing
`CameraIntrinsics` and merging its `asDict`, either of which can raise
after the resolution latch already took effect). Returns the state after
the call and either the grouping stored on the frame record or the
raised exception. -/
def buildObjData (cfg : CamConfig) (s : CamState) (g : GvaData) :
    CamState × Except String Grouped :=
  match buildGrouped cfg.thresholds cfg.policy g with
  | .error e => (s, .error e)
  | .ok objs =>
    let s1 : CamState :=
      { s with resolution :=
          match s.resolution, g.resolution with
          | some r, _ => some r
          | none, some r => some (r.width, r.height)
          | none, none => none }
    match s1.intrinsics_obj, s1.resolution, cfg.calib_intrinsics with
    | none, some (w, h), some ci =>
      match cameraIntrinsicsInit cfg.tanHalf cfg.sqrtQ ci cfg.calib_distortion (some [w, h]) with
      | .error e => (s1, .error e)
      | .ok obj =>
        let s2 := { s1 with intrinsics_obj := some obj }
        match obj.asDict with
        | .error e => (s2, .error e)
        | .ok _ => (s2, .ok objs)
    | _, _, _ => (s1, .ok objs)

/-- Feed a sequence of frames through `buildObjData`, camera state threaded. -/
def camFold (cfg : CamConfig) : List GvaData → CamState → CamState
  | [], s => s
  | g :: rest, s => camFold cfg rest (buildObjData cfg s g).1

/-- First resolution reported by any frame of the sequence. -/
def firstReportedRes : List GvaData → Option (ℚ × ℚ)
  | [] => none
  | g :: rest =>
    match g.resolution with
    | some r => some (r.width, r.height)
    | none => firstReportedRes rest

/-- How many frames of the sequence construct the intrinsics object
(`intrinsics_obj` transitions from `none` to `some`). -/
def constructionCount (cfg : CamConfig) : List GvaData → CamState → Nat
  | [], _ => 0
  | g :: rest, s =>
    let s' := (buildObjData cfg s g).1
    (if s.intrinsics_obj = none ∧ s'.intrinsics_obj ≠ none then 1 else 0)
      + constructionCount cfg rest s'

/-- `PostDecodeTimestampCapture` mutable state. -/
structure TsState where
  lastTimeSync : Option ℚ
  timeOffset : ℚ
  fps : ℚ
  last_calculated_fps_ts : Option ℚ
  frame_cnt : Nat
  deriving DecidableEq, Repr

/-- The message stamped onto the frame by
`PostDecodeTimestampCapture.processFrame`: the offset-corrected capture
time and the smoothed rate (the formatted-string field carries the same
instant). -/
structure TsStamp where
  timestamp_for_next_block : ℚ
  fps : ℚ
  deriving DecidableEq, Repr

/-- `PostDecodeTimestampCapture.processFrame`. `ntpQuery` is the outcome
of `ntpClient.request` when it would be issued (`none` = the request
raises). There is no exception handler in the source: a failed request
propagates, so no message is stamped (`Option` result `none`) and
neither `timeOffset` nor `lastTimeSync` is updated; the fps bookkeeping
before the request has already mutated the state. -/
def pdtcProcessFrame (ntpServer : Bool) (ntpQuery : Option ℚ) (now : ℚ)
    (s : TsState) : TsState × Option TsStamp :=
  let s := { s with frame_cnt := s.frame_cnt + 1 }
  let s :=
    match s.last_calculated_fps_ts with
    | none => { s with last_calculated_fps_ts := some now }
    | some _ => s
  let s :=
    match s.last_calculated_fps_ts with
    | some t =>
      if now - t > 1 then
        { s with
          fps := s.fps * (3/4) + (1/4) * ((s.frame_cnt : ℚ) / (now - t)),
          last_calculated_fps_ts := some now, frame_cnt := 0 }
      else s
    | none => s
  let due : Bool :=
    match s.lastTimeSync with
    | none => true
    | some last => now - last > 1000
  if ntpServer ∧ due then
    match ntpQuery with
    | none => (s, none)
    | some off =>
      let s := { s with timeOffset := off, lastTimeSync := some now }
      (s, some ⟨now + s.timeOffset, s.fps⟩)
  else
    (s, some ⟨now + s.timeOffset, s.fps⟩)

/-! ### Spec-side comparison definitions -/

/-- Center of mass as the spec sentence words it: `x = xmin + comw`,
`y = ymin + comh`, exact rationals, no conversion. -/
structure ClaimCom where
  x : ℚ
  y : ℚ
  width : ℚ
  height : ℚ
  deriving DecidableEq, Repr

/-- The geometry output claimed by the spec sentence. -/
structure ClaimGeom where
  center_of_mass : ClaimCom
  bounding_box_px : PixelBox
  deriving DecidableEq, Repr

/-- Modelled from the claim sentence for the common geometry step: pixel
extents by rounding (`xmin = round(x_min*frameWidth)`, etc.),
`comw=(xmax-xmin)/3`, `comh=(ymax-ymin)/4`, and
`center_of_mass = {x: xmin+comw, y: ymin+comh, width: comw, height: comh}`. -/
def claimBoundingBoxGeometry (fw fh x y w h xminnorm yminnorm xmaxnorm ymaxnorm : ℚ) :
    ClaimGeom :=
  let xmax : ℤ := round (xmaxnorm * fw)
  let xmin : ℤ := round (xminnorm * fw)
  let ymax : ℤ := round (ymaxnorm * fh)
  let ymin : ℤ := round (yminnorm * fh)
  let comw : ℚ := (xmax - xmin) / 3
  let comh : ℚ := (ymax - ymin) / 4
  { center_of_mass :=
      { x := (xmin : ℚ) + comw, y := (ymin : ℚ) + comh,
        width := comw, height := comh }
    bounding_box_px := { x := x, y := y, width := w, height := h } }

/-- The amended geometry: pixel extents by floor (= Python `int()`
truncation on the nonnegative products), and the center-of-mass `x`,`y`
floored again after adding the sub-region offsets. -/
def amendedBoundingBoxGeometry (fw fh x y w h xminnorm yminnorm xmaxnorm ymaxnorm : ℚ) :
    GeomOut :=
  let xmax : ℤ := ⌊xmaxnorm * fw⌋
  let xmin : ℤ := ⌊xminnorm * fw⌋
  let ymax : ℤ := ⌊ymaxnorm * fh⌋
  let ymin : ℤ := ⌊yminnorm * fh⌋
  let comw : ℚ := (xmax - xmin) / 3
  let comh : ℚ := (ymax - ymin) / 4
  { center_of_mass :=
      { x := ⌊(xmin : ℚ) + comw⌋, y := ⌊(ymin : ℚ) + comh⌋,
        width := comw, height := comh }
    bounding_box_px := { x := x, y := y, width := w, height := h } }

/-- The comparison pipeline named by the spec's "relative to not
filtering": the same loop and policy with the confidence gate removed. -/
def runDetNoFilter (fw fh : ℚ) : List Det → Grouped → Grouped
  | [], m => m
  | d :: rest, m =>
    let vaobj := detectionObj d fw fh
    runDetNoFilter fw fh rest
      (groupAdd m vaobj.category { vaobj with id := groupLen m vaobj.category + 1 })

/-! ### Supporting lemmas -/

theorem pyInt_eq_floor (q : ℚ) (h : 0 ≤ q) : pyInt q = ⌊q⌋ := by
  rw [pyInt, Rat.floor_def, Int.tdiv_eq_ediv]
  · exact Rat.num_nonneg.mpr h
  · exact Int.natCast_nonneg _

end Sscape

namespace Sscape

/-! ### C4: bounding-box geometry -/

/-- C4 counterexample: at frameWidth = frameHeight = 100 and normalized
box (0, 0, 0.299, 0.299), the code truncates 29.9 to 29 and then
truncates the center-of-mass x again, emitting 9, while the claimed
round-then-exact formula gives 10. -/
theorem c4_counterexample :
    ((computeObjBoundingBoxParams 100 100 0 0 10 10 0 0 (299/1000) (299/1000)).center_of_mass.x : ℚ)
      ≠ (claimBoundingBoxGeometry 100 100 0 0 10 10 0 0 (299/1000) (299/1000)).center_of_mass.x := by
  have h1 : pyInt ((299 : ℚ)/1000 * 100) = 29 := by
    rw [show (299 : ℚ)/1000 * 100 = mkRat 299 10 by rw [Rat.mkRat_eq_div]; norm_num]
    decide
  have h0 : pyInt ((0 : ℚ) * 100) = 0 := by
    rw [show (0 : ℚ) * 100 = 0 by ring]
    decide
  have hr : round ((299 : ℚ)/1000 * 100) = 30 := by
    rw [round_eq, show (299 : ℚ)/1000 * 100 + 1/2 = 152/5 by norm_num, Int.floor_eq_iff]
    constructor <;> norm_num
  have hr0 : round ((0 : ℚ) * 100) = 0 := by
    rw [show (0 : ℚ) * 100 = 0 by ring]
    exact round_zero
  have hcode : (computeObjBoundingBoxParams 100 100 0 0 10 10 0 0 (299/1000) (299/1000)).center_of_mass.x = 9 := by
    simp only [computeObjBoundingBoxParams, h1, h0]
    rw [show ((0 : ℤ) : ℚ) + (((29 : ℤ) : ℚ) - ((0 : ℤ) : ℚ)) / 3 = mkRat 29 3 by
      rw [Rat.mkRat_eq_div]; push_cast; ring]
    decide
  have hclaim : (claimBoundingBoxGeometry 100 100 0 0 10 10 0 0 (299/1000) (299/1000)).center_of_mass.x = 10 := by
    simp only [claimBoundingBoxGeometry, hr, hr0]
    push_cast
    norm_num
  rw [hcode, hclaim]
  norm_num

/-- C4 (amended): the common geometry step converts the normalized box
to pixel extents by truncation toward zero (Python `int()`, = floor on
the nonnegative products), computes `comw=(xmax-xmin)/3`,
`comh=(ymax-ymin)/4`, truncates the center-of-mass `x`,`y` once more,
and copies the detection's own pixel fields verbatim. -/
theorem c4_amended (fw fh x y w h xminnorm yminnorm xmaxnorm ymaxnorm : ℚ)
    (hx0 : 0 ≤ xminnorm * fw) (hx1 : xminnorm * fw ≤ xmaxnorm * fw)
    (hy0 : 0 ≤ yminnorm * fh) (hy1 : yminnorm * fh ≤ ymaxnorm * fh) :
    computeObjBoundingBoxParams fw fh x y w h xminnorm yminnorm xmaxnorm ymaxnorm
      = amendedBoundingBoxGeometry fw fh x y w h xminnorm yminnorm xmaxnorm ymaxnorm := by
  have fxmin := pyInt_eq_floor (xminnorm * fw) hx0
  have fxmax := pyInt_eq_floor (xmaxnorm * fw) (le_trans hx0 hx1)
  have fymin := pyInt_eq_floor (yminnorm * fh) hy0
  have fymax := pyInt_eq_floor (ymaxnorm * fh) (le_trans hy0 hy1)
  have hxm : (0 : ℤ) ≤ ⌊xminnorm * fw⌋ := Int.floor_nonneg.mpr hx0
  have hym : (0 : ℤ) ≤ ⌊yminnorm * fh⌋ := Int.floor_nonneg.mpr hy0
  have hxle : ⌊xminnorm * fw⌋ ≤ ⌊xmaxnorm * fw⌋ := Int.floor_le_floor hx1
  have hyle : ⌊yminnorm * fh⌋ ≤ ⌊ymaxnorm * fh⌋ := Int.floor_le_floor hy1
  have hcomx : (0 : ℚ) ≤ (⌊xminnorm * fw⌋ : ℚ) + ((⌊xmaxnorm * fw⌋ : ℚ) - (⌊xminnorm * fw⌋ : ℚ)) / 3 := by
    have h1 : (0 : ℚ) ≤ (⌊xminnorm * fw⌋ : ℚ) := by exact_mod_cast hxm
    have h2 : (⌊xminnorm * fw⌋ : ℚ) ≤ (⌊xmaxnorm * fw⌋ : ℚ) := by exact_mod_cast hxle
    nlinarith
  have hcomy : (0 : ℚ) ≤ (⌊yminnorm * fh⌋ : ℚ) + ((⌊ymaxnorm * fh⌋ : ℚ) - (⌊yminnorm * fh⌋ : ℚ)) / 4 := by
    have h1 : (0 : ℚ) ≤ (⌊yminnorm * fh⌋ : ℚ) := by exact_mod_cast hym
    have h2 : (⌊yminnorm * fh⌋ : ℚ) ≤ (⌊ymaxnorm * fh⌋ : ℚ) := by exact_mod_cast hyle
    nlinarith
  simp only [computeObjBoundingBoxParams, amendedBoundingBoxGeometry, fxmin, fxmax, fymin, fymax]
  rw [pyInt_eq_floor _ hcomx, pyInt_eq_floor _ hcomy]

/-- C4 amended witness: the spec's worked example, frame 640×480 with
normalized box (0.25, 0.25, 0.75, 0.75). -/
theorem c4_amended_witness :
    computeObjBoundingBoxParams 640 480 1 2 3 4 (1/4) (1/4) (3/4) (3/4)
      = amendedBoundingBoxGeometry 640 480 1 2 3 4 (1/4) (1/4) (3/4) (3/4) :=
  c4_amended 640 480 1 2 3 4 (1/4) (1/4) (3/4) (3/4)
    (by norm_num) (by norm_num) (by norm_num) (by norm_num)

/-! ### C8: distortion vector resolution -/

/-- C8: the resolved distortion vector has exactly 14 entries for every
input form: a list of length 0..14 is zero-padded on the right, a
mapping goes through the fixed 14-key schema with missing keys
defaulting to 0, and absent or unrecognized input yields the all-zero
14-vector. -/
theorem c8_distortion_always_14 :
    (∀ l : List ℚ, l.length ≤ 14 →
      setDistortion (.list l) = .ok (l ++ List.replicate (14 - l.length) 0)
        ∧ (l ++ List.replicate (14 - l.length) (0 : ℚ)).length = 14)
    ∧ (∀ d : List (String × ℚ),
        setDistortion (.dict d) = .ok (distortionDictToList d)
          ∧ (distortionDictToList d).length = 14
          ∧ distortionDictToList d = DISTORTION_KEYS.map (fun k => (d.lookup k).getD 0))
    ∧ setDistortion .absent = .ok (List.replicate 14 0)
    ∧ setDistortion .other = .ok (List.replicate 14 0)
    ∧ (List.replicate 14 (0 : ℚ)).length = 14 := by
  refine ⟨?_, ?_, rfl, rfl, rfl⟩
  · intro l hl
    constructor
    · simp [setDistortion, hl]
    · simp only [List.length_append, List.length_replicate]
      omega
  · intro d
    exact ⟨rfl, by simp [distortionDictToList, DISTORTION_KEYS], rfl⟩

/-- C8 witness: a 3-entry list is padded to 14 entries. -/
theorem c8_distortion_always_14_witness :
    setDistortion (.list [1, 2, 3]) = .ok ([1, 2, 3] ++ List.replicate (14 - [1, 2, 3].length) 0)
      ∧ (([1, 2, 3] : List ℚ) ++ List.replicate (14 - [1, 2, 3].length) (0 : ℚ)).length = 14 :=
  c8_distortion_always_14.1 [1, 2, 3] (by decide)

/-! ### C9: field-of-view resolution requires a resolution -/

/-- C9: resolving a field-of-view calibration (1- or 2-angle form)
without a known resolution — `resolution` missing or not a 2-element
sequence — always raises the invalid-input ValueError, both in
`computeIntrinsicsFromFoV` itself and through `CameraIntrinsics`
construction from a 1- or 2-element list. -/
theorem c9_fov_requires_resolution (tanHalf sqrtQ : ℚ → ℚ)
    (res : Option (List ℚ)) (hres : res = none ∨ ∀ l, res = some l → l.length ≠ 2) :
    (∀ fov : List ℚ, computeIntrinsicsFromFoV tanHalf sqrtQ res fov
        = .error "ValueError: Resolution required to calculate intrinsics from field of view")
    ∧ (∀ (l : List ℚ) (dist : DistortionInput), l.length = 1 ∨ l.length = 2 →
        cameraIntrinsicsInit tanHalf sqrtQ (.list l) dist res
          = .error "ValueError: Resolution required to calculate intrinsics from field of view") := by
  have hfov : ∀ fov : List ℚ, computeIntrinsicsFromFoV tanHalf sqrtQ res fov
      = .error "ValueError: Resolution required to calculate intrinsics from field of view" := by
    intro fov
    rcases hres with h | h
    · simp [computeIntrinsicsFromFoV, h]
    · cases res with
      | none => simp [computeIntrinsicsFromFoV]
      | some l => simp [computeIntrinsicsFromFoV, h l rfl]
  refine ⟨hfov, ?_⟩
  intro l dist hl
  simp [cameraIntrinsicsInit, initFromList, hl, hfov l]

/-- C9 witness: a single 90-degree angle with no resolution. -/
theorem c9_fov_requires_resolution_witness :
    (∀ fov : List ℚ, computeIntrinsicsFromFoV id id none fov
        = .error "ValueError: Resolution required to calculate intrinsics from field of view")
    ∧ (∀ (l : List ℚ) (dist : DistortionInput), l.length = 1 ∨ l.length = 2 →
        cameraIntrinsicsInit id id (.list l) dist none
          = .error "ValueError: Resolution required to calculate intrinsics from field of view") :=
  c9_fov_requires_resolution id id none (Or.inl rfl)

/-! ### C10: frame aggregation with objects but no resolution -/

/-- C10: a raw metadata mapping with a present, non-empty `objects`
entry but no `resolution` entry makes `buildObjData` raise the lookup
error before any object record is built: the camera state is untouched
and no grouping is produced. -/
theorem c10_missing_resolution_aborts (cfg : CamConfig) (s : CamState) (g : GvaData)
    (dets : List Det) (hobj : g.objects = some dets) (hne : dets ≠ [])
    (hres : g.resolution = none) :
    buildObjData cfg s g = (s, .error "KeyError: resolution") := by
  have hlen : dets.length > 0 := List.length_pos.mpr hne
  simp [buildObjData, buildGrouped, hobj, hres, hlen]

/-- C10 witness: one detection, no resolution entry. -/
theorem c10_missing_resolution_aborts_witness :
    buildObjData
      ⟨⟨[("default", 0)], 0, rfl⟩, detectionPolicyE, none, .absent, id, id⟩
      ⟨none, none⟩
      ⟨some [⟨0, 0, 0, 0, "person", 1, ⟨0, 0, 0, 0⟩, []⟩], none⟩
      = (⟨none, none⟩, .error "KeyError: resolution") :=
  c10_missing_resolution_aborts _ _ _ _ rfl (by decide) rfl

/-! ### Grouping lemmas -/

theorem lookup_groupAdd (m : Grouped) (c : String) (o : ObjRec) (c' : String) :
    (groupAdd m c o).lookup c' =
      if c' = c then some (((m.lookup c).getD []) ++ [o]) else m.lookup c' := by
  induction m with
  | nil =>
    by_cases h : c' = c
    · subst h
      simp [groupAdd, List.lookup]
    · simp [groupAdd, List.lookup, h, beq_false_of_ne h]
  | cons p rest ih =>
    obtain ⟨k, l⟩ := p
    by_cases hk : k = c
    · subst hk
      by_cases h : c' = k
      · subst h
        simp [groupAdd, List.lookup]
      · simp [groupAdd, List.lookup, h, beq_false_of_ne h]
    · have hck : (c == k) = false := beq_false_of_ne (fun hh => hk hh.symm)
      by_cases h : c' = k
      · subst h
        simp [groupAdd, List.lookup, hk, beq_false_of_ne hk]
      · simp [groupAdd, List.lookup, hk, beq_false_of_ne h, ih, hck]

theorem groupLen_groupAdd_self (m : Grouped) (c : String) (o : ObjRec) :
    groupLen (groupAdd m c o) c = groupLen m c + 1 := by
  simp only [groupLen, lookup_groupAdd, if_pos rfl]
  cases m.lookup c <;> simp

theorem groupLen_groupAdd_ne (m : Grouped) (c : String) (o : ObjRec) (c' : String)
    (h : c' ≠ c) : groupLen (groupAdd m c o) c' = groupLen m c' := by
  simp only [groupLen, lookup_groupAdd, if_neg h]

/-- Invariant of the grouping container: every present category holds a
non-empty list whose `id`s are exactly `1..N` in order. -/
def GroupedWF (m : Grouped) : Prop :=
  ∀ p ∈ m, p.2 ≠ [] ∧ p.2.map (fun o => o.id) = List.range' 1 p.2.length

theorem groupedWF_nil : GroupedWF [] := by
  intro p hp
  simp at hp

theorem range'_one_concat (n : Nat) :
    List.range' 1 (n + 1) = List.range' 1 n ++ [n + 1] := by
  have hr : List.range' 1 (n + 1) = List.range' 1 n ++ [1 + 1 * n] :=
    List.range'_concat 1 n
  simpa [Nat.add_comm] using hr

theorem groupedWF_groupAdd (m : Grouped) (c : String) (o : ObjRec)
    (h : GroupedWF m) (hid : o.id = groupLen m c + 1) :
    GroupedWF (groupAdd m c o) := by
  induction m with
  | nil =>
    intro p hp
    have hid' : o.id = 1 := by simpa [groupLen, List.lookup] using hid
    have hp' : p = (c, [o]) := by simpa [groupAdd] using hp
    subst hp'
    simp [hid', List.range']
  | cons q rest ih =>
    obtain ⟨k, l⟩ := q
    by_cases hk : k = c
    · subst hk
      have hid' : o.id = l.length + 1 := by
        simpa [groupLen, List.lookup] using hid
      have hg : groupAdd ((k, l) :: rest) k o = (k, l ++ [o]) :: rest := by
        simp [groupAdd]
      intro p hp
      rw [hg] at hp
      rcases List.mem_cons.mp hp with hp | hp
      · subst hp
        obtain ⟨hne, hids⟩ := h (k, l) (List.mem_cons_self _ _)
        refine ⟨by simp, ?_⟩
        simp only [List.map_append, List.length_append, List.map_cons, List.map_nil,
          List.length_cons, List.length_nil, Nat.zero_add]
        rw [hids, hid', range'_one_concat]
      · exact h p (List.mem_cons_of_mem _ hp)
    · have hck : (c == k) = false := beq_false_of_ne (fun hh => hk hh.symm)
      have hg : groupAdd ((k, l) :: rest) c o = (k, l) :: groupAdd rest c o := by
        simp [groupAdd, hk]
      intro p hp
      rw [hg] at hp
      rcases List.mem_cons.mp hp with hp | hp
      · subst hp
        exact h (k, l) (List.mem_cons_self _ _)
      · have hrest : GroupedWF rest := fun q hq => h q (List.mem_cons_of_mem _ hq)
        have hid' : o.id = groupLen rest c + 1 := by
          simpa [groupLen, List.lookup, hck] using hid
        exact ih hrest hid' p hp

theorem runDetections_wf (t : ThresholdTable) (pol : Policy) (fw fh : ℚ)
    (dets : List Det) (m m' : Grouped) (hm : GroupedWF m)
    (h : runDetections t pol fw fh dets m = .ok m') : GroupedWF m' := by
  induction dets generalizing m with
  | nil =>
    simp only [runDetections] at h
    cases h
    exact hm
  | cons d rest ih =>
    by_cases hgate : d.confidence < t.threshold d.label
    · simp only [runDetections, if_pos hgate] at h
      exact ih m hm h
    · simp only [runDetections, if_neg hgate] at h
      cases hp : pol d fw fh with
      | error e =>
        rw [hp] at h
        exact absurd h (by simp)
      | ok vaobj =>
        rw [hp] at h
        exact ih _ (groupedWF_groupAdd _ _ _ hm rfl) h

/-! ### C5: contiguous per-category ids, no empty categories -/

/-- C5: in every grouping assembled by frame aggregation, each present
category key holds a non-empty list of object records whose `id` values
are the contiguous sequence `1..N` in arrival (append) order; a key is
present only because at least one accepted record was appended to it
(never present-but-empty). -/
theorem c5_ids_contiguous (t : ThresholdTable) (pol : Policy) (g : GvaData)
    (m : Grouped) (h : buildGrouped t pol g = .ok m) :
    ∀ p ∈ m, p.2 ≠ [] ∧ p.2.map (fun o => o.id) = List.range' 1 p.2.length := by
  obtain ⟨gobj, gres⟩ := g
  cases gobj with
  | none =>
    simp only [buildGrouped] at h
    cases h
    exact groupedWF_nil
  | some dets =>
    by_cases hl : dets.length > 0
    · cases gres with
      | none =>
        simp only [buildGrouped, if_pos hl] at h
        exact absurd h (by simp)
      | some r =>
        simp only [buildGrouped, if_pos hl] at h
        exact runDetections_wf t pol r.width r.height dets [] m groupedWF_nil h
    · simp only [buildGrouped, if_neg hl] at h
      cases h
      exact groupedWF_nil

/-- Threshold table fixture for witnesses: `{default: 0}`. -/
def witThresholds : ThresholdTable := ⟨[("default", 0)], 0, rfl⟩

/-- Frame fixture for the C5 witness: three detections in two categories
(person, car, person), all passing the gate. -/
def c5WitnessFrame : GvaData :=
  ⟨some [⟨0, 0, 0, 0, "person", 1, ⟨0, 0, 0, 0⟩, []⟩,
         ⟨0, 0, 0, 0, "car", 1, ⟨0, 0, 0, 0⟩, []⟩,
         ⟨0, 0, 0, 0, "person", 1, ⟨0, 0, 0, 0⟩, []⟩],
   some ⟨100, 100⟩⟩

/-- C5 witness: on the three-detection fixture, the first category of
the assembled grouping is non-empty and its ids are contiguous. -/
theorem c5_ids_contiguous_witness :
    ((buildGrouped witThresholds detectionPolicyE c5WitnessFrame).toOption.getD []).head!.2 ≠ []
    ∧ (((buildGrouped witThresholds detectionPolicyE c5WitnessFrame).toOption.getD []).head!.2.map
          (fun o => o.id))
        = List.range' 1
            ((buildGrouped witThresholds detectionPolicyE c5WitnessFrame).toOption.getD []).head!.2.length :=
  c5_ids_contiguous witThresholds detectionPolicyE c5WitnessFrame _ rfl _
    (List.head!_mem_self (by decide))

/-! ### C1: the confidence gate -/

theorem detectionObj_category (d : Det) (fw fh : ℚ) :
    (detectionObj d fw fh).category = d.label := rfl

theorem shouldKeep_false_of_lt {t : ThresholdTable} {d : Det}
    (h : d.confidence < t.threshold d.label) :
    shouldKeep t d.label d.confidence = false := by
  simp only [shouldKeep, decide_eq_false_iff_not]
  exact not_le.mpr h

theorem shouldKeep_true_of_le {t : ThresholdTable} {d : Det}
    (h : t.threshold d.label ≤ d.confidence) :
    shouldKeep t d.label d.confidence = true := by
  simp only [shouldKeep, decide_eq_true_eq]
  exact h

/-- Gated aggregation with the detection policy is exactly ungated
aggregation of the detections passing `shouldKeep`. -/
theorem runDetections_detection_eq (t : ThresholdTable) (fw fh : ℚ)
    (dets : List Det) (m : Grouped) :
    runDetections t detectionPolicyE fw fh dets m
      = .ok (runDetNoFilter fw fh
          (dets.filter fun d => shouldKeep t d.label d.confidence) m) := by
  induction dets generalizing m with
  | nil => simp [runDetections, runDetNoFilter]
  | cons d rest ih =>
    by_cases hgate : d.confidence < t.threshold d.label
    · have hsk : shouldKeep t d.label d.confidence = false := shouldKeep_false_of_lt hgate
      simp only [runDetections, if_pos hgate, List.filter_cons, hsk]
      exact ih m
    · have hsk : shouldKeep t d.label d.confidence = true :=
        shouldKeep_true_of_le (not_lt.mp hgate)
      simp only [runDetections, if_neg hgate, detectionPolicyE, List.filter_cons, hsk,
        if_pos, runDetNoFilter]
      exact ih _

/-- Per-category size of the ungated grouping: the number of detections
with that label (the detection policy's category is the label). -/
theorem groupLen_runDetNoFilter (fw fh : ℚ) (dets : List Det) (m : Grouped) (c : String) :
    groupLen (runDetNoFilter fw fh dets m) c
      = groupLen m c + (dets.filter fun d => d.label == c).length := by
  induction dets generalizing m with
  | nil => simp [runDetNoFilter]
  | cons d rest ih =>
    simp only [runDetNoFilter, detectionObj_category, List.filter_cons]
    by_cases hc : d.label = c
    · subst hc
      simp only [beq_self_eq_true, if_pos, List.length_cons]
      rw [ih, groupLen_groupAdd_self]
      omega
    · have hbeq : (d.label == c) = false := beq_false_of_ne hc
      simp only [hbeq, Bool.false_eq_true, if_neg, if_false]
      rw [ih, groupLen_groupAdd_ne _ _ _ _ (Ne.symm hc)]

/-- C1: the gate keeps a detection exactly when
`confidence ≥ threshold(label)`, where `threshold` is the table entry
for the label or the `default` entry when absent; a rejected detection
produces no object record (the aggregation result is as if it were not
in the frame) and the category's object count is exactly one less than
the ungated pipeline's. -/
theorem c1_confidence_gate (t : ThresholdTable) (fw fh : ℚ)
    (pre post : List Det) (d : Det)
    (hd : d.confidence < t.threshold d.label)
    (hothers : ∀ e ∈ pre ++ post, t.threshold e.label ≤ e.confidence) :
    (∀ lbl conf, shouldKeep t lbl conf = true ↔ t.threshold lbl ≤ conf)
    ∧ (∀ lbl v, t.entries.lookup lbl = some v → t.threshold lbl = v)
    ∧ (∀ lbl, t.entries.lookup lbl = none → t.threshold lbl = t.dflt)
    ∧ runDetections t detectionPolicyE fw fh (pre ++ d :: post) []
        = runDetections t detectionPolicyE fw fh (pre ++ post) []
    ∧ groupLen ((runDetections t detectionPolicyE fw fh (pre ++ d :: post) []).toOption.getD [])
          d.label + 1
        = groupLen (runDetNoFilter fw fh (pre ++ d :: post) []) d.label := by
  have hsk : shouldKeep t d.label d.confidence = false := shouldKeep_false_of_lt hd
  have hfilter : (pre ++ d :: post).filter (fun e => shouldKeep t e.label e.confidence)
      = pre ++ post := by
    have hpre : pre.filter (fun e => shouldKeep t e.label e.confidence) = pre :=
      List.filter_eq_self.mpr fun e he =>
        shouldKeep_true_of_le (hothers e (List.mem_append_left _ he))
    have hpost : post.filter (fun e => shouldKeep t e.label e.confidence) = post :=
      List.filter_eq_self.mpr fun e he =>
        shouldKeep_true_of_le (hothers e (List.mem_append_right _ he))
    simp [List.filter_append, List.filter_cons, hsk, hpre, hpost]
  refine ⟨?_, ?_, ?_, ?_, ?_⟩
  · intro lbl conf
    simp [shouldKeep]
  · intro lbl v hv
    simp [ThresholdTable.threshold, hv]
  · intro lbl hv
    simp [ThresholdTable.threshold, hv]
  · rw [runDetections_detection_eq, runDetections_detection_eq, hfilter]
    have hpp : (pre ++ post).filter (fun e => shouldKeep t e.label e.confidence)
        = pre ++ post := by
      exact List.filter_eq_self.mpr fun e he => shouldKeep_true_of_le (hothers e he)
    rw [hpp]
  · rw [runDetections_detection_eq, hfilter]
    simp only [Except.toOption, Option.getD_some]
    rw [groupLen_runDetNoFilter, groupLen_runDetNoFilter]
    simp only [List.filter_append, List.filter_cons, beq_self_eq_true, if_pos,
      List.length_append, List.length_cons]
    omega

/-- Threshold table fixture `{default: 0.5, person: 0.6}`. -/
def c1Table : ThresholdTable := ⟨[("default", mkRat 1 2), ("person", mkRat 3 5)], mkRat 1 2, rfl⟩

/-- Rejected detection fixture: person at confidence 0.42 < 0.6. -/
def c1Reject : Det := ⟨0, 0, 0, 0, "person", mkRat 21 50, ⟨0, 0, 0, 0⟩, []⟩

/-- Kept detection fixture: car at confidence 1 ≥ default 0.5. -/
def c1Keep : Det := ⟨0, 0, 0, 0, "car", 1, ⟨0, 0, 0, 0⟩, []⟩

/-- C1 witness: the spec's example table `{default: 0.5, person: 0.6}`
with a person at 0.42 rejected and a car at 1.0 kept. -/
theorem c1_confidence_gate_witness :
    (∀ lbl conf, shouldKeep c1Table lbl conf = true ↔ c1Table.threshold lbl ≤ conf)
    ∧ (∀ lbl v, c1Table.entries.lookup lbl = some v → c1Table.threshold lbl = v)
    ∧ (∀ lbl, c1Table.entries.lookup lbl = none → c1Table.threshold lbl = c1Table.dflt)
    ∧ runDetections c1Table detectionPolicyE 100 100 ([] ++ c1Reject :: [c1Keep]) []
        = runDetections c1Table detectionPolicyE 100 100 ([] ++ [c1Keep]) []
    ∧ groupLen ((runDetections c1Table detectionPolicyE 100 100 ([] ++ c1Reject :: [c1Keep]) []).toOption.getD [])
          c1Reject.label + 1
        = groupLen (runDetNoFilter 100 100 ([] ++ c1Reject :: [c1Keep]) []) c1Reject.label :=
  c1_confidence_gate c1Table 100 100 [] [c1Keep] c1Reject (by decide) (by decide)

/-! ### C7: 4-parameter calibration round-trip -/

/-- C7 counterexample: a mapping that does contain all four of
`fx,fy,cx,cy` but also one extra key raises ValueError instead of
building the matrix, because `intrinsicsDictToList` runs first and
checks that every key of the mapping is one of the four. -/
theorem c7_counterexample :
    cameraIntrinsicsInit id id
        (.dict [("fx", 1), ("fy", 2), ("cx", 3), ("cy", 4), ("k1", 0)]) .absent none
      = .error "ValueError: Invalid intrinsics" := rfl

/-- C7 (amended): for a mapping whose keys all lie in `{fx,fy,cx,cy}`
and which contains all four (equivalently: exactly the four keys), and
for a 4-element ordered list, construction builds the canonical pinhole
matrix `[[fx,0,cx],[0,fy,cy],[0,0,1]]` directly and `asDict`
round-trips to the original `fx,fy,cx,cy` exactly. -/
theorem c7_roundtrip (tanHalf sqrtQ : ℚ → ℚ) (dct : List (String × ℚ)) (a b c e : ℚ)
    (dist : DistortionInput) (dl : List ℚ) (res : Option (List ℚ))
    (hall : dct.all (fun kv => INTRINSICS_KEYS.contains kv.1) = true)
    (hfx : dct.lookup "fx" = some a) (hfy : dct.lookup "fy" = some b)
    (hcx : dct.lookup "cx" = some c) (hcy : dct.lookup "cy" = some e)
    (hdist : setDistortion dist = .ok dl) :
    cameraIntrinsicsInit tanHalf sqrtQ (.dict dct) dist res = .ok ⟨.mat (pinhole a b c e), dl⟩
    ∧ cameraIntrinsicsInit tanHalf sqrtQ (.list [a, b, c, e]) dist res
        = .ok ⟨.mat (pinhole a b c e), dl⟩
    ∧ (CamIntr.mk (.mat (pinhole a b c e)) dl).asDict
        = .ok (⟨a, b, c, e⟩, DISTORTION_KEYS.zip dl) := by
  refine ⟨?_, ?_, rfl⟩
  · have h1 : intrinsicsDictToList dct = .ok [a, b, c, e] := by
      rw [intrinsicsDictToList, if_pos hall, hfx, hfy, hcx, hcy]
    have h2 : INTRINSICS_KEYS.all (fun k => (dct.lookup k).isSome) = true := by
      simp [INTRINSICS_KEYS, hfx, hfy, hcx, hcy]
    simp [cameraIntrinsicsInit, h1, h2, hfx, hfy, hcx, hcy, hdist]
  · simp [cameraIntrinsicsInit, initFromList, hdist]

/-- C7 witness: `{fx:100, fy:110, cx:320, cy:240}` with no distortion. -/
theorem c7_roundtrip_witness :
    cameraIntrinsicsInit id id
        (.dict [("fx", 100), ("fy", 110), ("cx", 320), ("cy", 240)]) .absent none
      = .ok ⟨.mat (pinhole 100 110 320 240), List.replicate 14 0⟩
    ∧ cameraIntrinsicsInit id id (.list [100, 110, 320, 240]) .absent none
        = .ok ⟨.mat (pinhole 100 110 320 240), List.replicate 14 0⟩
    ∧ (CamIntr.mk (.mat (pinhole 100 110 320 240)) (List.replicate 14 0)).asDict
        = .ok (⟨100, 110, 320, 240⟩, DISTORTION_KEYS.zip (List.replicate 14 0)) :=
  c7_roundtrip id id [("fx", 100), ("fy", 110), ("cx", 320), ("cy", 240)]
    100 110 320 240 .absent (List.replicate 14 0) none rfl rfl rfl rfl rfl rfl

/-! ### C6: resolution latch and intrinsics latch -/

/-- A metadata policy that never raises (the detection policy is one). -/
def PolicyTotal (pol : Policy) : Prop := ∀ d fw fh, ∃ o, pol d fw fh = .ok o

/-- The fresh per-camera state set up in `__init__`. -/
def freshCam : CamState := ⟨none, none⟩

theorem runDetections_ok_of_total {pol : Policy} (hpol : PolicyTotal pol)
    (t : ThresholdTable) (fw fh : ℚ) (dets : List Det) (m : Grouped) :
    ∃ m', runDetections t pol fw fh dets m = .ok m' := by
  induction dets generalizing m with
  | nil => exact ⟨m, rfl⟩
  | cons d rest ih =>
    by_cases hgate : d.confidence < t.threshold d.label
    · simpa [runDetections, if_pos hgate] using ih m
    · obtain ⟨o, ho⟩ := hpol d fw fh
      simpa [runDetections, if_neg hgate, ho] using ih _

theorem buildGrouped_error_res {pol : Policy} (hpol : PolicyTotal pol)
    (t : ThresholdTable) (g : GvaData) (e : String)
    (h : buildGrouped t pol g = .error e) : g.resolution = none := by
  obtain ⟨gobj, gres⟩ := g
  cases gobj with
  | none => simp [buildGrouped] at h
  | some dets =>
    by_cases hl : dets.length > 0
    · cases gres with
      | none => rfl
      | some r =>
        obtain ⟨m', hm'⟩ := runDetections_ok_of_total hpol t r.width r.height dets []
        simp [buildGrouped, if_pos hl, hm'] at h
    · simp [buildGrouped, if_neg hl] at h

theorem buildObjData_res_pres (cfg : CamConfig) (s : CamState) (g : GvaData)
    (r : ℚ × ℚ) (h : s.resolution = some r) :
    ((buildObjData cfg s g).1).resolution = some r := by
  cases hbg : buildGrouped cfg.thresholds cfg.policy g with
  | error e => simpa [buildObjData, hbg] using h
  | ok objs =>
    simp only [buildObjData, hbg, h]
    split <;> (try split) <;> (try split) <;> simp [h]

theorem buildObjData_intr_pres (cfg : CamConfig) (s : CamState) (g : GvaData)
    (o : CamIntr) (h : s.intrinsics_obj = some o) :
    ((buildObjData cfg s g).1).intrinsics_obj = some o := by
  cases hbg : buildGrouped cfg.thresholds cfg.policy g with
  | error e => simpa [buildObjData, hbg] using h
  | ok objs =>
    simp only [buildObjData, hbg]
    split <;> (try split) <;> (try split) <;> simp_all

theorem buildObjData_res_latch (cfg : CamConfig) (s : CamState) (g : GvaData)
    (hpol : PolicyTotal cfg.policy) (h : s.resolution = none) :
    ((buildObjData cfg s g).1).resolution
      = g.resolution.map (fun r => (r.width, r.height)) := by
  cases hbg : buildGrouped cfg.thresholds cfg.policy g with
  | error e =>
    have hres := buildGrouped_error_res hpol cfg.thresholds g e hbg
    simp [buildObjData, hbg, h, hres]
  | ok objs =>
    simp only [buildObjData, hbg, h]
    cases hg : g.resolution with
    | none => split <;> (try split) <;> (try split) <;> simp_all
    | some r => split <;> (try split) <;> (try split) <;> simp_all

theorem buildObjData_intr_keep_nores (cfg : CamConfig) (s : CamState) (g : GvaData)
    (h : s.resolution = none) (hg : g.resolution = none) :
    ((buildObjData cfg s g).1).intrinsics_obj = s.intrinsics_obj := by
  cases hbg : buildGrouped cfg.thresholds cfg.policy g with
  | error e => simp [buildObjData, hbg]
  | ok objs =>
    simp only [buildObjData, hbg, h, hg]
    split <;> (try split) <;> (try split) <;> simp_all

theorem buildObjData_constructs (cfg : CamConfig) (s : CamState) (g : GvaData)
    (r : Resolution) (ci : CalibInput) (hpol : PolicyTotal cfg.policy)
    (hsi : s.intrinsics_obj = none) (hsr : s.resolution = none)
    (hg : g.resolution = some r) (hcal : cfg.calib_intrinsics = some ci)
    (hinit : ∃ obj, cameraIntrinsicsInit cfg.tanHalf cfg.sqrtQ ci
        cfg.calib_distortion (some [r.width, r.height]) = .ok obj) :
    ((buildObjData cfg s g).1).intrinsics_obj ≠ none := by
  cases hbg : buildGrouped cfg.thresholds cfg.policy g with
  | error e =>
    have hres := buildGrouped_error_res hpol cfg.thresholds g e hbg
    rw [hres] at hg
    cases hg
  | ok objs =>
    obtain ⟨obj, hobj⟩ := hinit
    simp only [buildObjData, hbg, hsi, hsr, hg, hcal, hobj]
    cases hd : obj.asDict <;> simp

theorem camFold_append (cfg : CamConfig) (as bs : List GvaData) (s : CamState) :
    camFold cfg (as ++ bs) s = camFold cfg bs (camFold cfg as s) := by
  induction as generalizing s with
  | nil => rfl
  | cons g rest ih => simp [camFold, ih]

theorem camFold_res_pres (cfg : CamConfig) (frames : List GvaData) :
    ∀ (s : CamState) (r : ℚ × ℚ), s.resolution = some r →
      (camFold cfg frames s).resolution = some r := by
  induction frames with
  | nil => intro s r h; exact h
  | cons g rest ih =>
    intro s r h
    exact ih _ r (buildObjData_res_pres cfg s g r h)

theorem camFold_intr_pres (cfg : CamConfig) (frames : List GvaData) :
    ∀ (s : CamState) (o : CamIntr), s.intrinsics_obj = some o →
      (camFold cfg frames s).intrinsics_obj = some o := by
  induction frames with
  | nil => intro s o h; exact h
  | cons g rest ih =>
    intro s o h
    exact ih _ o (buildObjData_intr_pres cfg s g o h)

theorem camFold_res_first (cfg : CamConfig) (hpol : PolicyTotal cfg.policy)
    (frames : List GvaData) :
    ∀ s : CamState, s.resolution = none →
      (camFold cfg frames s).resolution = firstReportedRes frames := by
  induction frames with
  | nil => intro s h; exact h
  | cons g rest ih =>
    intro s h
    have hstep := buildObjData_res_latch cfg s g hpol h
    cases hg : g.resolution with
    | none =>
      rw [hg] at hstep
      simp only [Option.map_none'] at hstep
      simpa [camFold, firstReportedRes, hg] using ih _ hstep
    | some r =>
      rw [hg] at hstep
      simp only [Option.map_some'] at hstep
      simpa [camFold, firstReportedRes, hg] using
        camFold_res_pres cfg rest _ _ hstep

theorem constructionCount_of_some (cfg : CamConfig) (frames : List GvaData) :
    ∀ (s : CamState) (o : CamIntr), s.intrinsics_obj = some o →
      constructionCount cfg frames s = 0 := by
  induction frames with
  | nil => intro s o _; rfl
  | cons g rest ih =>
    intro s o h
    have hkeep := buildObjData_intr_pres cfg s g o h
    simp only [constructionCount, h]
    rw [ih _ o hkeep]
    simp

theorem constructionCount_le_one (cfg : CamConfig) (frames : List GvaData) :
    ∀ s : CamState, constructionCount cfg frames s ≤ 1 := by
  induction frames with
  | nil => intro s; simp [constructionCount]
  | cons g rest ih =>
    intro s
    simp only [constructionCount]
    by_cases htr : s.intrinsics_obj = none ∧ ((buildObjData cfg s g).1).intrinsics_obj ≠ none
    · rcases ho : ((buildObjData cfg s g).1).intrinsics_obj with _ | o
      · exact absurd ho htr.2
      · rw [constructionCount_of_some cfg rest _ o ho]
        split <;> omega
    · rw [if_neg htr]
      simpa using ih ((buildObjData cfg s g).1)

/-- C6: across any frame sequence, the stored resolution is the first
reported one (fresh camera), is never overridden once set, the
intrinsics object is constructed at most once however many frames
report a resolution, and — when calibration exists and resolves — it is
constructed exactly on the first frame that reports a resolution, whose
value also sticks for the rest of the sequence. -/
theorem c6_resolution_intrinsics_latch (cfg : CamConfig) (hpol : PolicyTotal cfg.policy) :
    (∀ frames, (camFold cfg frames freshCam).resolution = firstReportedRes frames)
    ∧ (∀ frames s r, s.resolution = some r → (camFold cfg frames s).resolution = some r)
    ∧ (∀ frames s, constructionCount cfg frames s ≤ 1)
    ∧ (∀ ci, cfg.calib_intrinsics = some ci →
        (∀ r : Resolution, ∃ obj, cameraIntrinsicsInit cfg.tanHalf cfg.sqrtQ ci
            cfg.calib_distortion (some [r.width, r.height]) = .ok obj) →
        ∀ pre g post r, (∀ p ∈ pre, p.resolution = none) → g.resolution = some r →
          (camFold cfg pre freshCam).intrinsics_obj = none
          ∧ (camFold cfg (pre ++ [g]) freshCam).intrinsics_obj ≠ none
          ∧ (camFold cfg (pre ++ g :: post) freshCam).resolution = some (r.width, r.height)) := by
  have hgen : ∀ (frames : List GvaData) (s : CamState),
      s.intrinsics_obj = none → s.resolution = none →
      (∀ p ∈ frames, p.resolution = none) →
      (camFold cfg frames s).intrinsics_obj = none
        ∧ (camFold cfg frames s).resolution = none := by
    intro frames
    induction frames with
    | nil => intro s hi hr _; exact ⟨hi, hr⟩
    | cons q qs ihq =>
      intro s hi hr hall'
      have hq : q.resolution = none := hall' q (List.mem_cons_self _ _)
      have h1 : ((buildObjData cfg s q).1).resolution = none := by
        simpa [hq] using buildObjData_res_latch cfg s q hpol hr
      have h2 : ((buildObjData cfg s q).1).intrinsics_obj = s.intrinsics_obj :=
        buildObjData_intr_keep_nores cfg s q hr hq
      exact ihq _ (h2.trans hi) h1 (fun p hp => hall' p (List.mem_cons_of_mem _ hp))
  have hfreshpre : ∀ pre : List GvaData, (∀ p ∈ pre, p.resolution = none) →
      (camFold cfg pre freshCam).intrinsics_obj = none
        ∧ (camFold cfg pre freshCam).resolution = none :=
    fun pre hp => hgen pre freshCam rfl rfl hp
  refine ⟨?_, ?_, ?_, ?_⟩
  · intro frames
    exact camFold_res_first cfg hpol frames freshCam rfl
  · intro frames s r h
    exact camFold_res_pres cfg frames s r h
  · intro frames s
    exact constructionCount_le_one cfg frames s
  · intro ci hcal hinit pre g post r hpre hg
    obtain ⟨hpi, hpr⟩ := hfreshpre pre hpre
    refine ⟨hpi, ?_, ?_⟩
    · rw [camFold_append]
      simp only [camFold]
      exact buildObjData_constructs cfg (camFold cfg pre freshCam) g r ci hpol
        hpi hpr hg hcal (hinit r)
    · rw [camFold_append]
      simp only [camFold]
      have hstep : ((buildObjData cfg (camFold cfg pre freshCam) g).1).resolution
          = some (r.width, r.height) := by
        simpa [hg] using buildObjData_res_latch cfg (camFold cfg pre freshCam) g hpol hpr
      exact camFold_res_pres cfg post _ _ hstep

/-- Calibration fixture for the C6 witness. -/
def c6Calib : CalibInput := .dict [("fx", 100), ("fy", 110), ("cx", 320), ("cy", 240)]

/-- Camera configuration fixture for the C6 witness. -/
def c6Cfg : CamConfig := ⟨witThresholds, detectionPolicyE, some c6Calib, .absent, id, id⟩

/-- C6 witness: one frame without resolution, then a frame reporting
100×100 (intrinsics constructed there), then a frame reporting 200×200
that does not override the stored resolution. -/
theorem c6_resolution_intrinsics_latch_witness :
    (camFold c6Cfg [⟨none, none⟩] freshCam).intrinsics_obj = none
    ∧ (camFold c6Cfg ([⟨none, none⟩] ++ [⟨none, some ⟨100, 100⟩⟩]) freshCam).intrinsics_obj ≠ none
    ∧ (camFold c6Cfg
          ([⟨none, none⟩] ++ (⟨none, some ⟨100, 100⟩⟩ : GvaData) :: [⟨none, some ⟨200, 200⟩⟩])
          freshCam).resolution = some (100, 100) :=
  (c6_resolution_intrinsics_latch c6Cfg (fun d fw fh => ⟨_, rfl⟩)).2.2.2 c6Calib rfl
    (fun _ => ⟨_, rfl⟩) [⟨none, none⟩] ⟨none, some ⟨100, 100⟩⟩ [⟨none, some ⟨200, 200⟩⟩]
    ⟨100, 100⟩ (by decide) rfl

/-! ### C3: reid metadata policy -/

theorem b64indexOf_charOf (v : Nat) (h : v < 64) : b64indexOf (b64charOf v) = some v := by
  have hall : ∀ v < 64, b64indexOf (b64charOf v) = some v := by decide
  exact hall v h

theorem b64charOf_ne_pad (v : Nat) (h : v < 64) : ¬ b64charOf v = '=' := by
  have hall : ∀ v < 64, ¬ b64charOf v = '=' := by decide
  exact hall v h

/-- Decoding an encoded byte string recovers the bytes exactly. -/
theorem b64_decode_encode :
    ∀ bs : List Nat, (∀ b ∈ bs, b < 256) →
      b64decodeBytes (b64encodeBytes bs) = some bs
  | [] => fun _ => rfl
  | [a] => fun h => by
    have ha : a < 256 := h a (by simp)
    have h1 : a / 4 < 64 := by omega
    have h2 : a % 4 * 16 < 64 := by omega
    simp [b64encodeBytes, b64decodeBytes, b64indexOf_charOf _ h1, b64indexOf_charOf _ h2]
    omega
  | [a, b] => fun h => by
    have ha : a < 256 := h a (by simp)
    have hb : b < 256 := h b (by simp)
    have h1 : a / 4 < 64 := by omega
    have h2 : a % 4 * 16 + b / 16 < 64 := by omega
    have h3 : b % 16 * 4 < 64 := by omega
    simp [b64encodeBytes, b64decodeBytes, b64indexOf_charOf _ h1,
      b64indexOf_charOf _ h2, b64indexOf_charOf _ h3, b64charOf_ne_pad _ h3]
    constructor <;> omega
  | a :: b :: c :: rest => fun h => by
    have ha : a < 256 := h a (by simp)
    have hb : b < 256 := h b (by simp)
    have hc : c < 256 := h c (by simp)
    have h1 : a / 4 < 64 := by omega
    have h2 : a % 4 * 16 + b / 16 < 64 := by omega
    have h3 : b % 16 * 4 + c / 64 < 64 := by omega
    have h4 : c % 64 < 64 := by omega
    have ih := b64_decode_encode rest (fun x hx => h x (by simp [hx]))
    simp [b64encodeBytes, b64decodeBytes, b64indexOf_charOf _ h1, b64indexOf_charOf _ h2,
      b64indexOf_charOf _ h3, b64indexOf_charOf _ h4, b64charOf_ne_pad _ h4, ih]
    refine ⟨?_, ?_, ?_⟩ <;> omega

theorem word32bytes_lt (w : Nat) : ∀ b ∈ word32bytes w, b < 256 := by
  intro b hb
  simp only [word32bytes, List.mem_cons, List.not_mem_nil, or_false] at hb
  rcases hb with h | h | h | h <;> omega

theorem flatten_word32_lt (l : List Nat) :
    ∀ b ∈ (l.map word32bytes).flatten, b < 256 := by
  intro b hb
  simp only [List.mem_flatten, List.mem_map] at hb
  obtain ⟨bytes, ⟨w, _, hw⟩, hbw⟩ := hb
  subst hw
  exact word32bytes_lt w b hbw

theorem flatten_word32_len (l : List Nat) :
    ((l.map word32bytes).flatten).length = 4 * l.length := by
  induction l with
  | nil => rfl
  | cons w rest ih =>
    simp only [List.map_cons, List.flatten_cons, List.length_append, ih, word32bytes,
      List.length_cons, List.length_nil]
    omega

/-- Camera configuration fixture dispatching the reid policy. -/
def reidCfg : CamConfig := ⟨witThresholds, reidPolicyE, none, .absent, id, id⟩

/-- C3 failing frame: the first detection has no `tensors[1]`; the
second is a perfectly fine reid detection that never gets processed. -/
def c3BadFrame : GvaData :=
  ⟨some [⟨0, 0, 0, 0, "person", 1, ⟨0, 0, 0, 0⟩, [[]]⟩,
         ⟨0, 0, 0, 0, "person", 1, ⟨0, 0, 0, 0⟩, [[], List.replicate 256 0]⟩],
   some ⟨100, 100⟩⟩

/-- C3 failing frame: a single detection whose embedding has 255
values instead of 256. -/
def c3ShortFrame : GvaData :=
  ⟨some [⟨0, 0, 0, 0, "person", 1, ⟨0, 0, 0, 0⟩, [[], List.replicate 255 0]⟩],
   some ⟨100, 100⟩⟩

set_option maxRecDepth 8000 in
/-- C3: a detection with a missing or wrongly-sized auxiliary tensor
aborts the whole `buildObjData` call (the other detections are not
processed and no grouping is stored), contradicting the claim that
only the single object record fails; for a 256-value tensor the
`reid` field is a base64 string decoding to exactly 1024 bytes. -/
theorem c3_reid_policy :
    buildObjData reidCfg freshCam c3BadFrame = (freshCam, .error "IndexError: tensors[1]")
    ∧ buildObjData reidCfg freshCam c3ShortFrame
        = (freshCam, .error "struct.error: pack expected 256 items")
    ∧ ∀ (d : Det) (fw fh : ℚ) (data : List Nat),
        d.tensors.get? 1 = some data → data.length = 256 →
        ∃ o, reidPolicyE d fw fh = .ok o
          ∧ ∃ str, o.reid = some str
            ∧ ∃ bs, b64decodeBytes str.data = some bs ∧ bs.length = 1024 := by
  refine ⟨rfl, rfl, ?_⟩
  intro d fw fh data hget hlen
  have hpack : structPack256f data = .ok ((data.map word32bytes).flatten) := by
    simp [structPack256f, hlen]
  have hbs := b64_decode_encode _ (flatten_word32_lt data)
  have hget' : d.tensors[1]? = some data := by simpa using hget
  refine ⟨{ detectionObj d fw fh with
      reid := some ⟨b64encodeBytes ((data.map word32bytes).flatten)⟩ },
    by simp [reidPolicyE, hget', hpack], _, rfl, _, hbs, ?_⟩
  rw [flatten_word32_len, hlen]

/-- Detection fixture with a well-formed 256-value embedding tensor. -/
def c3GoodDet : Det := ⟨0, 0, 0, 0, "person", 1, ⟨0, 0, 0, 0⟩, [[], List.replicate 256 0]⟩

set_option maxRecDepth 8000 in
/-- C3 witness: on the well-formed fixture the reid field decodes to
1024 bytes. -/
theorem c3_reid_policy_witness :
    ∃ o, reidPolicyE c3GoodDet 100 100 = .ok o
      ∧ ∃ str, o.reid = some str
        ∧ ∃ bs, b64decodeBytes str.data = some bs ∧ bs.length = 1024 :=
  c3_reid_policy.2.2 c3GoodDet 100 100 (List.replicate 256 0) rfl (by simp)

/-- The timestamp filter is due for an NTP resync at `now`. -/
def ntpDue (s : TsState) (now : ℚ) : Prop :=
  s.lastTimeSync = none ∨ ∃ last, s.lastTimeSync = some last ∧ now - last > 1000

/-- C2: with an NTP server configured and the resync due, a failing
network-time query makes `processFrame` propagate the exception: the
frame is never stamped (no message is added), which contradicts the
claim that the frame is still stamped and returned. The previously
stored offset and sync time are indeed retained. -/
theorem c2_ntp_failure_aborts_frame (s : TsState) (now : ℚ) (hdue : ntpDue s now) :
    ∃ s', pdtcProcessFrame true none now s = (s', none)
      ∧ s'.timeOffset = s.timeOffset ∧ s'.lastTimeSync = s.lastTimeSync := by
  obtain ⟨lts, off, fps, lcf, fc⟩ := s
  rcases hdue with h | ⟨last, h, hgt⟩
  · have h' : lts = none := h
    subst h'
    cases lcf <;> simp [pdtcProcessFrame] <;> split_ifs <;> simp_all
  · have h' : lts = some last := h
    subst h'
    cases lcf <;> simp [pdtcProcessFrame, hgt] <;> split_ifs <;> simp_all

/-- C2 witness: fresh state (no previous sync), query failure at time 0. -/
theorem c2_ntp_failure_aborts_frame_witness :
    ∃ s', pdtcProcessFrame true none 0 ⟨none, 5, 5, none, 0⟩ = (s', none)
      ∧ s'.timeOffset = (⟨none, 5, 5, none, 0⟩ : TsState).timeOffset
      ∧ s'.lastTimeSync = (⟨none, 5, 5, none, 0⟩ : TsState).lastTimeSync :=
  c2_ntp_failure_aborts_frame ⟨none, 5, 5, none, 0⟩ 0 (Or.inl rfl)

end Sscape
